import Mathlib

/-!
Shallow embedding of twilight-model's src/channel/forum.rs: the DefaultReaction
and ForumTag data types and the hand-written ForumTag deserializer
(ForumTagVisitor::visit_map), together with proofs about the decoder's
behaviour.  Wire documents are modelled as ordered association lists of key
strings and self-describing wire values mirroring serde_value::Value.
-/

namespace Forum

/-- Wire values: the subset of serde_value::Value shapes relevant to the
decoder.  The catch-all arm of the source's match treats every shape other
than the explicitly handled ones as no identifier. -/
inductive Value where
  | unit : Value
  | bool : Bool → Value
  | u64 : Nat → Value
  | i64 : Int → Value
  | string : String → Value
  | optNone : Value
  | optSome : Value → Value
  | newtype : Value → Value
deriving DecidableEq

/-- Decode errors surfaced by the visitor: serde's duplicate_field and
missing_field, plus a type mismatch raised by a typed next_value call. -/
inductive DeError where
  | duplicateField : String → DeError
  | missingField : String → DeError
  | invalidType : String → DeError
deriving DecidableEq

/-- Result of a decoding step.  crash models a Rust panic (an unwrap on a
failed parse), which is distinct from returning a decode error. -/
inductive DeResult (α : Type) where
  | ok : α → DeResult α
  | err : DeError → DeResult α
  | crash : DeResult α
deriving DecidableEq

/-- The ForumTag struct (forum.rs lines 35-54); snowflake ids are modelled
as natural numbers. -/
structure ForumTag where
  emoji_id : Option Nat
  emoji_name : Option String
  id : Nat
  moderated : Bool
  name : String
deriving DecidableEq

/-- The DefaultReaction struct (forum.rs lines 17-26). -/
structure DefaultReaction where
  emoji_id : Option Nat
  emoji_name : Option String
deriving DecidableEq

/-- Rust's u64::from_str: an optional leading plus sign followed by one or
more ASCII digits, and the value must fit in 64 bits. -/
def parseU64 (s : String) : Option Nat :=
  let core :=
    match s.data with
    | '+' :: rest => rest
    | cs => cs
  if core.isEmpty then none
  else if core.all Char.isDigit then
    let n := core.foldl (fun acc c => acc * 10 + (c.toNat - 48)) 0
    if n < 2 ^ 64 then some n else none
  else none

/-- The field_identifier enum of the deserializer (forum.rs lines 61-69),
renamed to snake_case on the wire. -/
inductive Field where
  | emojiId : Field
  | emojiName : Field
  | id : Field
  | moderated : Field
  | name : Field
deriving DecidableEq

/-- Key dispatch of the derived field_identifier: the five recognized keys;
any other key makes next_key report an error, which the loop treats as an
unknown key. -/
def parseField (s : String) : Option Field :=
  if s = "emoji_id" then some .emojiId
  else if s = "emoji_name" then some .emojiName
  else if s = "id" then some .id
  else if s = "moderated" then some .moderated
  else if s = "name" then some .name
  else none

/-- The possible_id match of visit_map (forum.rs lines 108-121): a direct
u64, or an optional wrapper holding a newtype whose inner value is text.
crash models the panic of string.parse followed by unwrap when the inner
text fails to parse as a u64. -/
def possibleId (v : Value) : DeResult (Option Nat) :=
  match v with
  | .u64 val => .ok (some val)
  | .optSome w =>
    match w with
    | .newtype inner =>
      match inner with
      | .string s =>
        match parseU64 s with
        | some n => .ok (some n)
        | none => .crash
      | _ => .ok none
    | _ => .ok none
  | _ => .ok none

/-- Lines 123-127 of forum.rs: the resolved emoji_id slot is assigned only
when the resolved number is positive; zero or no number leaves it absent. -/
def resolveEmojiId (v : Value) : DeResult (Option Nat) :=
  match possibleId v with
  | .ok (some n) => .ok (if 0 < n then some n else none)
  | .ok none => .ok none
  | .err e => .err e
  | .crash => .crash

/-- serde extraction of an Option String for emoji_name: null or unit is
absent, text (wrapped or direct) is present, anything else is a type
error. -/
def nextValueOptionString (v : Value) : DeResult (Option String) :=
  match v with
  | .optNone => .ok none
  | .optSome (.string s) => .ok (some s)
  | .string s => .ok (some s)
  | .unit => .ok none
  | _ => .err (.invalidType "emoji_name")

/-- serde extraction of a Bool for moderated. -/
def nextValueBool (v : Value) : DeResult Bool :=
  match v with
  | .bool b => .ok b
  | _ => .err (.invalidType "moderated")

/-- serde extraction of a String for name. -/
def nextValueString (v : Value) : DeResult String :=
  match v with
  | .string s => .ok s
  | _ => .err (.invalidType "name")

/-- Modelled from the spec: the snowflake Id deserializer lives in crate::id,
outside the provided sources.  Per the spec a snowflake is a 64-bit numeric
identifier that the wire may carry as an integer, as numeric text, or inside
a newtype wrapper. -/
def nextValueId (v : Value) : DeResult Nat :=
  match v with
  | .u64 n => .ok n
  | .string s =>
    match parseU64 s with
    | some n => .ok n
    | none => .err (.invalidType "id")
  | .newtype w => nextValueId w
  | _ => .err (.invalidType "id")

/-- The five not-yet-seen slots initialised at the top of visit_map
(forum.rs lines 81-85). -/
structure VisitState where
  emoji_id : Option Nat
  emoji_name : Option (Option String)
  id : Option Nat
  moderated : Option Bool
  name : Option String
deriving DecidableEq

def initState : VisitState := ⟨none, none, none, none, none⟩

/-- Dispatch on a recognized key (forum.rs lines 100-157): each arm fails on
a repeat of a slot that is already filled, otherwise extracts and stores;
the emoji_id arm stores the result of the edge-case resolution, which may
leave the slot absent. -/
def processField (st : VisitState) (f : Field) (v : Value) : DeResult VisitState :=
  match f with
  | .emojiId =>
    if st.emoji_id.isSome then .err (.duplicateField "emoji_id")
    else
      match resolveEmojiId v with
      | .ok r => .ok { st with emoji_id := r }
      | .err e => .err e
      | .crash => .crash
  | .emojiName =>
    if st.emoji_name.isSome then .err (.duplicateField "emoji_name")
    else
      match nextValueOptionString v with
      | .ok s => .ok { st with emoji_name := some s }
      | .err e => .err e
      | .crash => .crash
  | .id =>
    if st.id.isSome then .err (.duplicateField "id")
    else
      match nextValueId v with
      | .ok n => .ok { st with id := some n }
      | .err e => .err e
      | .crash => .crash
  | .moderated =>
    if st.moderated.isSome then .err (.duplicateField "moderated")
    else
      match nextValueBool v with
      | .ok b => .ok { st with moderated := some b }
      | .err e => .err e
      | .crash => .crash
  | .name =>
    if st.name.isSome then .err (.duplicateField "name")
    else
      match nextValueString v with
      | .ok s => .ok { st with name := some s }
      | .err e => .err e
      | .crash => .crash

/-- The key-consuming loop of visit_map (forum.rs lines 87-158).  A key that
is not recognized takes the error branch of next_key: its value is skipped
unread and the key is appended to the trace log. -/
def runVisitor : VisitState → List String → List (String × Value) →
    DeResult VisitState × List String
  | st, log, [] => (.ok st, log)
  | st, log, (k, v) :: rest =>
    match parseField k with
    | none => runVisitor st (log ++ [k]) rest
    | some f =>
      match processField st f v with
      | .ok st2 => runVisitor st2 log rest
      | .err e => (.err e, log)
      | .crash => (.crash, log)

/-- Assembly of the ForumTag (forum.rs lines 160-166): emoji_id is taken
as-is, emoji_name defaults to absent, and the three required fields fail
with missing_field in the written order id, moderated, name. -/
def finishVisit (st : VisitState) : DeResult ForumTag :=
  match st.id with
  | none => .err (.missingField "id")
  | some i =>
    match st.moderated with
    | none => .err (.missingField "moderated")
    | some m =>
      match st.name with
      | none => .err (.missingField "name")
      | some nm => .ok ⟨st.emoji_id, st.emoji_name.getD none, i, m, nm⟩

/-- Full ForumTag deserialization: run the loop from the empty state, then
validate and assemble; the second component is the trace log of unknown
keys. -/
def deserializeForumTag (doc : List (String × Value)) :
    DeResult ForumTag × List String :=
  match runVisitor initState [] doc with
  | (.ok st, log) => (finishVisit st, log)
  | (.err e, log) => (.err e, log)
  | (.crash, log) => (.crash, log)

/-- Keys of a wire document, in order. -/
def docKeys (doc : List (String × Value)) : List String := doc.map Prod.fst

/-- Whether an entry's key is one of the five recognized keys. -/
def recognizedEntry (e : String × Value) : Bool := (parseField e.1).isSome

/-- The document with all unrecognized entries removed. -/
def filterRecognized (doc : List (String × Value)) : List (String × Value) :=
  doc.filter recognizedEntry

/-- The unrecognized keys of a document, in order. -/
def unrecognizedKeys (doc : List (String × Value)) : List String :=
  (doc.filter fun e => !recognizedEntry e).map Prod.fst

/-- Modelled from the spec: encoding is not special-cased and follows the
data model directly (derived Serialize); both optional fields are emitted,
absent as null and present as an optional wrapper around the value. -/
def serializeDefaultReaction (r : DefaultReaction) : List (String × Value) :=
  [("emoji_id", match r.emoji_id with
    | none => .optNone
    | some n => .optSome (.u64 n)),
   ("emoji_name", match r.emoji_name with
    | none => .optNone
    | some s => .optSome (.string s))]

/-- serde extraction of an Option Id: null or unit is absent, otherwise the
value (unwrapped from the optional wrapper when present) is an Id. -/
def nextValueOptionId (v : Value) : DeResult (Option Nat) :=
  match v with
  | .optNone => .ok none
  | .optSome w =>
    match nextValueId w with
    | .ok n => .ok (some n)
    | .err e => .err e
    | .crash => .crash
  | .unit => .ok none
  | w =>
    match nextValueId w with
    | .ok n => .ok (some n)
    | .err e => .err e
    | .crash => .crash

/-- Slots of the derived DefaultReaction deserializer. -/
structure DRState where
  emoji_id : Option (Option Nat)
  emoji_name : Option (Option String)
deriving DecidableEq

/-- Modelled from the spec: the derived Deserialize loop for DefaultReaction;
duplicates of a recognized field fail, unknown keys are ignored. -/
def drLoop : DRState → List (String × Value) → DeResult DRState
  | st, [] => .ok st
  | st, (k, v) :: rest =>
    if k = "emoji_id" then
      if st.emoji_id.isSome then .err (.duplicateField "emoji_id")
      else
        match nextValueOptionId v with
        | .ok r => drLoop { st with emoji_id := some r } rest
        | .err e => .err e
        | .crash => .crash
    else if k = "emoji_name" then
      if st.emoji_name.isSome then .err (.duplicateField "emoji_name")
      else
        match nextValueOptionString v with
        | .ok r => drLoop { st with emoji_name := some r } rest
        | .err e => .err e
        | .crash => .crash
    else drLoop st rest

/-- Modelled from the spec: derived DefaultReaction deserialization; a
missing optional field defaults to absent. -/
def deserializeDefaultReaction (doc : List (String × Value)) :
    DeResult DefaultReaction :=
  match drLoop ⟨none, none⟩ doc with
  | .ok st => .ok ⟨st.emoji_id.getD none, st.emoji_name.getD none⟩
  | .err e => .err e
  | .crash => .crash

end Forum
namespace Forum

theorem runVisitor_nil (st : VisitState) (log : List String) :
    runVisitor st log [] = (.ok st, log) := rfl

theorem runVisitor_cons (st : VisitState) (log : List String) (k : String) (v : Value)
    (rest : List (String × Value)) :
    runVisitor st log ((k, v) :: rest) =
      match parseField k with
      | none => runVisitor st (log ++ [k]) rest
      | some f =>
        match processField st f v with
        | .ok st2 => runVisitor st2 log rest
        | .err e => (.err e, log)
        | .crash => (.crash, log) := rfl

theorem runVisitor_fst_log (doc : List (String × Value)) :
    ∀ st log1 log2, (runVisitor st log1 doc).1 = (runVisitor st log2 doc).1 := by
  induction doc with
  | nil => intro st l1 l2; rfl
  | cons e rest ih =>
    intro st l1 l2
    obtain ⟨k, v⟩ := e
    rw [runVisitor_cons, runVisitor_cons]
    cases hpf : parseField k with
    | none => dsimp only; exact ih st _ _
    | some f =>
      dsimp only
      cases hpr : processField st f v with
      | ok st2 => dsimp only; exact ih st2 _ _
      | err e2 => rfl
      | crash => rfl

theorem runVisitor_append_ok (pre : List (String × Value)) :
    ∀ suf st log st2 log2, runVisitor st log pre = (.ok st2, log2) →
      runVisitor st log (pre ++ suf) = runVisitor st2 log2 suf := by
  induction pre with
  | nil =>
    intro suf st log st2 log2 h
    rw [runVisitor_nil] at h
    cases h
    rfl
  | cons e rest ih =>
    intro suf st log st2 log2 h
    obtain ⟨k, v⟩ := e
    rw [runVisitor_cons] at h
    rw [List.cons_append, runVisitor_cons]
    cases hpf : parseField k with
    | none =>
      rw [hpf] at h
      dsimp only at h ⊢
      exact ih suf st (log ++ [k]) st2 log2 h
    | some f =>
      rw [hpf] at h
      dsimp only at h ⊢
      cases hpr : processField st f v with
      | ok st3 =>
        rw [hpr] at h
        dsimp only at h ⊢
        exact ih suf st3 log st2 log2 h
      | err e2 => rw [hpr] at h; simp at h
      | crash => rw [hpr] at h; simp at h

end Forum
namespace Forum

/-- The wire key of each recognized field. -/
def fieldKey : Field → String
  | .emojiId => "emoji_id"
  | .emojiName => "emoji_name"
  | .id => "id"
  | .moderated => "moderated"
  | .name => "name"

theorem parseField_some_eq (k : String) (f : Field) (h : parseField k = some f) :
    k = fieldKey f := by
  unfold parseField at h
  split_ifs at h with h1 h2 h3 h4 h5 <;> cases h <;> simp [fieldKey, *]

theorem fieldKey_id_iff (f : Field) : fieldKey f = "id" ↔ f = .id := by
  cases f <;> simp [fieldKey]

theorem fieldKey_moderated_iff (f : Field) : fieldKey f = "moderated" ↔ f = .moderated := by
  cases f <;> simp [fieldKey]

theorem fieldKey_name_iff (f : Field) : fieldKey f = "name" ↔ f = .name := by
  cases f <;> simp [fieldKey]

theorem fieldKey_emojiName_iff (f : Field) : fieldKey f = "emoji_name" ↔ f = .emojiName := by
  cases f <;> simp [fieldKey]

theorem docKeys_cons (k : String) (v : Value) (rest : List (String × Value)) :
    docKeys ((k, v) :: rest) = k :: docKeys rest := rfl

end Forum
namespace Forum

theorem resolveEmojiId_ok_ne_zero (v : Value) (r : Option Nat)
    (h : resolveEmojiId v = .ok r) : r ≠ some 0 := by
  unfold resolveEmojiId at h
  cases hp : possibleId v with
  | ok o =>
    rw [hp] at h
    cases o with
    | none => dsimp only at h; cases h; simp
    | some n =>
      dsimp only at h
      cases h
      by_cases hn : 0 < n
      · simp [hn]; omega
      · simp [hn]
  | err e => rw [hp] at h; simp at h
  | crash => rw [hp] at h; simp at h

theorem processField_ok_effects (st : VisitState) (f : Field) (v : Value) (st2 : VisitState)
    (h : processField st f v = .ok st2) :
    (f ≠ .emojiId → st2.emoji_id = st.emoji_id) ∧
    (f ≠ .emojiName → st2.emoji_name = st.emoji_name) ∧
    (f ≠ .id → st2.id = st.id) ∧
    (f ≠ .moderated → st2.moderated = st.moderated) ∧
    (f ≠ .name → st2.name = st.name) ∧
    (f = .id → st2.id.isSome = true) ∧
    (f = .moderated → st2.moderated.isSome = true) ∧
    (f = .name → st2.name.isSome = true) ∧
    (f = .emojiName → st2.emoji_name.isSome = true) ∧
    (st.emoji_id ≠ some 0 → st2.emoji_id ≠ some 0) := by
  cases f
  case emojiId =>
    unfold processField at h
    by_cases hdup : st.emoji_id.isSome
    · simp [hdup] at h
    · simp only [hdup, if_false, Bool.false_eq_true] at h
      cases hr : resolveEmojiId v with
      | ok r =>
        rw [hr] at h
        dsimp only at h
        cases h
        refine ⟨by simp, by simp, by simp, by simp, by simp, by simp, by simp, by simp,
          by simp, ?_⟩
        intro _
        exact resolveEmojiId_ok_ne_zero v r hr
      | err e => rw [hr] at h; simp at h
      | crash => rw [hr] at h; simp at h
  case emojiName =>
    unfold processField at h
    by_cases hdup : st.emoji_name.isSome
    · simp [hdup] at h
    · simp only [hdup, if_false, Bool.false_eq_true] at h
      cases hr : nextValueOptionString v with
      | ok s =>
        rw [hr] at h
        dsimp only at h
        cases h
        exact ⟨by simp, by simp, by simp, by simp, by simp, by simp, by simp, by simp,
          by simp, by simp⟩
      | err e => rw [hr] at h; simp at h
      | crash => rw [hr] at h; simp at h
  case id =>
    unfold processField at h
    by_cases hdup : st.id.isSome
    · simp [hdup] at h
    · simp only [hdup, if_false, Bool.false_eq_true] at h
      cases hr : nextValueId v with
      | ok n =>
        rw [hr] at h
        dsimp only at h
        cases h
        exact ⟨by simp, by simp, by simp, by simp, by simp, by simp, by simp, by simp,
          by simp, by simp⟩
      | err e => rw [hr] at h; simp at h
      | crash => rw [hr] at h; simp at h
  case moderated =>
    unfold processField at h
    by_cases hdup : st.moderated.isSome
    · simp [hdup] at h
    · simp only [hdup, if_false, Bool.false_eq_true] at h
      cases hr : nextValueBool v with
      | ok b =>
        rw [hr] at h
        dsimp only at h
        cases h
        exact ⟨by simp, by simp, by simp, by simp, by simp, by simp, by simp, by simp,
          by simp, by simp⟩
      | err e => rw [hr] at h; simp at h
      | crash => rw [hr] at h; simp at h
  case name =>
    unfold processField at h
    by_cases hdup : st.name.isSome
    · simp [hdup] at h
    · simp only [hdup, if_false, Bool.false_eq_true] at h
      cases hr : nextValueString v with
      | ok s =>
        rw [hr] at h
        dsimp only at h
        cases h
        exact ⟨by simp, by simp, by simp, by simp, by simp, by simp, by simp, by simp,
          by simp, by simp⟩
      | err e => rw [hr] at h; simp at h
      | crash => rw [hr] at h; simp at h

end Forum
namespace Forum

theorem runVisitor_ok_inv (doc : List (String × Value)) :
    ∀ st log st2 log2, runVisitor st log doc = (.ok st2, log2) →
      ("emoji_id" ∉ docKeys doc → st2.emoji_id = st.emoji_id) ∧
      ("emoji_name" ∉ docKeys doc → st2.emoji_name = st.emoji_name) ∧
      ("id" ∉ docKeys doc → st2.id = st.id) ∧
      ("moderated" ∉ docKeys doc → st2.moderated = st.moderated) ∧
      ("name" ∉ docKeys doc → st2.name = st.name) ∧
      ("id" ∈ docKeys doc ∨ st.id.isSome = true → st2.id.isSome = true) ∧
      ("moderated" ∈ docKeys doc ∨ st.moderated.isSome = true → st2.moderated.isSome = true) ∧
      ("name" ∈ docKeys doc ∨ st.name.isSome = true → st2.name.isSome = true) ∧
      ("emoji_name" ∈ docKeys doc ∨ st.emoji_name.isSome = true → st2.emoji_name.isSome = true) ∧
      (st.emoji_id ≠ some 0 → st2.emoji_id ≠ some 0) := by
  induction doc with
  | nil =>
    intro st log st2 log2 h
    rw [runVisitor_nil] at h
    cases h
    simp [docKeys]
  | cons e rest ih =>
    intro st log st2 log2 h
    obtain ⟨k, v⟩ := e
    rw [runVisitor_cons] at h
    cases hpf : parseField k with
    | none =>
      rw [hpf] at h
      dsimp only at h
      obtain ⟨i1, i2, i3, i4, i5, i6, i7, i8, i9, i10⟩ := ih st (log ++ [k]) st2 log2 h
      have hne : ∀ f0 : Field, k ≠ fieldKey f0 := by
        intro f0 hk
        rw [hk] at hpf
        cases f0 <;> exact absurd hpf (by decide)
      simp only [docKeys_cons, List.mem_cons, not_or]
      refine ⟨fun hm => i1 hm.2, fun hm => i2 hm.2, fun hm => i3 hm.2, fun hm => i4 hm.2,
        fun hm => i5 hm.2, ?_, ?_, ?_, ?_, i10⟩
      · rintro ((hk | hm) | hs)
        · exact absurd hk.symm (hne .id)
        · exact i6 (Or.inl hm)
        · exact i6 (Or.inr hs)
      · rintro ((hk | hm) | hs)
        · exact absurd hk.symm (hne .moderated)
        · exact i7 (Or.inl hm)
        · exact i7 (Or.inr hs)
      · rintro ((hk | hm) | hs)
        · exact absurd hk.symm (hne .name)
        · exact i8 (Or.inl hm)
        · exact i8 (Or.inr hs)
      · rintro ((hk | hm) | hs)
        · exact absurd hk.symm (hne .emojiName)
        · exact i9 (Or.inl hm)
        · exact i9 (Or.inr hs)
    | some f =>
      rw [hpf] at h
      dsimp only at h
      have hk : k = fieldKey f := parseField_some_eq k f hpf
      subst hk
      cases hpr : processField st f v with
      | ok st3 =>
        rw [hpr] at h
        dsimp only at h
        obtain ⟨p1, p2, p3, p4, p5, p6, p7, p8, p9, p10⟩ :=
          processField_ok_effects st f v st3 hpr
        obtain ⟨i1, i2, i3, i4, i5, i6, i7, i8, i9, i10⟩ := ih st3 log st2 log2 h
        simp only [docKeys_cons, List.mem_cons, not_or]
        constructor
        · intro hm
          have hf : f ≠ .emojiId := fun he => hm.1 (by rw [he]; rfl)
          rw [i1 hm.2, p1 hf]
        constructor
        · intro hm
          have hf : f ≠ .emojiName := fun he => hm.1 (by rw [he]; rfl)
          rw [i2 hm.2, p2 hf]
        constructor
        · intro hm
          have hf : f ≠ .id := fun he => hm.1 (by rw [he]; rfl)
          rw [i3 hm.2, p3 hf]
        constructor
        · intro hm
          have hf : f ≠ .moderated := fun he => hm.1 (by rw [he]; rfl)
          rw [i4 hm.2, p4 hf]
        constructor
        · intro hm
          have hf : f ≠ .name := fun he => hm.1 (by rw [he]; rfl)
          rw [i5 hm.2, p5 hf]
        constructor
        · rintro ((hk | hm) | hs)
          · exact i6 (Or.inr (p6 ((fieldKey_id_iff f).mp hk.symm)))
          · exact i6 (Or.inl hm)
          · refine i6 (Or.inr ?_)
            by_cases hf : f = .id
            · exact p6 hf
            · rw [p3 hf]; exact hs
        constructor
        · rintro ((hk | hm) | hs)
          · exact i7 (Or.inr (p7 ((fieldKey_moderated_iff f).mp hk.symm)))
          · exact i7 (Or.inl hm)
          · refine i7 (Or.inr ?_)
            by_cases hf : f = .moderated
            · exact p7 hf
            · rw [p4 hf]; exact hs
        constructor
        · rintro ((hk | hm) | hs)
          · exact i8 (Or.inr (p8 ((fieldKey_name_iff f).mp hk.symm)))
          · exact i8 (Or.inl hm)
          · refine i8 (Or.inr ?_)
            by_cases hf : f = .name
            · exact p8 hf
            · rw [p5 hf]; exact hs
        constructor
        · rintro ((hk | hm) | hs)
          · exact i9 (Or.inr (p9 ((fieldKey_emojiName_iff f).mp hk.symm)))
          · exact i9 (Or.inl hm)
          · refine i9 (Or.inr ?_)
            by_cases hf : f = .emojiName
            · exact p9 hf
            · rw [p2 hf]; exact hs
        · exact fun hz => i10 (p10 hz)
      | err e2 => rw [hpr] at h; simp at h
      | crash => rw [hpr] at h; simp at h

end Forum
namespace Forum

theorem filterRecognized_cons_true (e : String × Value) (rest : List (String × Value))
    (h : recognizedEntry e = true) :
    filterRecognized (e :: rest) = e :: filterRecognized rest := by
  simp [filterRecognized, List.filter_cons, h]

theorem filterRecognized_cons_false (e : String × Value) (rest : List (String × Value))
    (h : recognizedEntry e = false) :
    filterRecognized (e :: rest) = filterRecognized rest := by
  simp [filterRecognized, List.filter_cons, h]

theorem unrecognizedKeys_cons_true (k : String) (v : Value) (rest : List (String × Value))
    (h : recognizedEntry (k, v) = true) :
    unrecognizedKeys ((k, v) :: rest) = unrecognizedKeys rest := by
  simp [unrecognizedKeys, List.filter_cons, h]

theorem unrecognizedKeys_cons_false (k : String) (v : Value) (rest : List (String × Value))
    (h : recognizedEntry (k, v) = false) :
    unrecognizedKeys ((k, v) :: rest) = k :: unrecognizedKeys rest := by
  simp [unrecognizedKeys, List.filter_cons, h]

theorem runVisitor_filter_fst (doc : List (String × Value)) :
    ∀ st log, (runVisitor st log (filterRecognized doc)).1 = (runVisitor st log doc).1 := by
  induction doc with
  | nil => intro st log; rfl
  | cons e rest ih =>
    intro st log
    obtain ⟨k, v⟩ := e
    cases hpf : parseField k with
    | none =>
      have hre : recognizedEntry (k, v) = false := by simp [recognizedEntry, hpf]
      rw [filterRecognized_cons_false _ _ hre, runVisitor_cons, hpf]
      dsimp only
      rw [ih st log]
      exact runVisitor_fst_log rest st log (log ++ [k])
    | some f =>
      have hre : recognizedEntry (k, v) = true := by simp [recognizedEntry, hpf]
      rw [filterRecognized_cons_true _ _ hre, runVisitor_cons, runVisitor_cons, hpf]
      dsimp only
      cases hpr : processField st f v with
      | ok st2 => dsimp only; exact ih st2 log
      | err e2 => rfl
      | crash => rfl

theorem runVisitor_ok_log (doc : List (String × Value)) :
    ∀ st log st2 log2, runVisitor st log doc = (.ok st2, log2) →
      log2 = log ++ unrecognizedKeys doc := by
  induction doc with
  | nil =>
    intro st log st2 log2 h
    rw [runVisitor_nil] at h
    cases h
    simp [unrecognizedKeys]
  | cons e rest ih =>
    intro st log st2 log2 h
    obtain ⟨k, v⟩ := e
    rw [runVisitor_cons] at h
    cases hpf : parseField k with
    | none =>
      rw [hpf] at h
      dsimp only at h
      have hre : recognizedEntry (k, v) = false := by simp [recognizedEntry, hpf]
      rw [unrecognizedKeys_cons_false _ _ _ hre]
      rw [ih st (log ++ [k]) st2 log2 h]
      simp
    | some f =>
      rw [hpf] at h
      dsimp only at h
      have hre : recognizedEntry (k, v) = true := by simp [recognizedEntry, hpf]
      rw [unrecognizedKeys_cons_true _ _ _ hre]
      cases hpr : processField st f v with
      | ok st3 =>
        rw [hpr] at h
        dsimp only at h
        exact ih st3 log st2 log2 h
      | err e2 => rw [hpr] at h; simp at h
      | crash => rw [hpr] at h; simp at h

theorem finishVisit_ok_fields (st : VisitState) (tag : ForumTag)
    (h : finishVisit st = .ok tag) :
    tag.emoji_id = st.emoji_id ∧ tag.emoji_name = st.emoji_name.getD none := by
  unfold finishVisit at h
  cases hid : st.id with
  | none => rw [hid] at h; simp at h
  | some i =>
    rw [hid] at h
    dsimp only at h
    cases hm : st.moderated with
    | none => rw [hm] at h; simp at h
    | some m =>
      rw [hm] at h
      dsimp only at h
      cases hn : st.name with
      | none => rw [hn] at h; simp at h
      | some nm =>
        rw [hn] at h
        dsimp only at h
        cases h
        exact ⟨rfl, rfl⟩

theorem deserializeForumTag_ok_elim (doc : List (String × Value)) (tag : ForumTag)
    (log : List String) (h : deserializeForumTag doc = (.ok tag, log)) :
    ∃ st, runVisitor initState [] doc = (.ok st, log) ∧ finishVisit st = .ok tag := by
  unfold deserializeForumTag at h
  cases hr : runVisitor initState [] doc with
  | mk r l =>
    rw [hr] at h
    cases r with
    | ok st =>
      dsimp only at h
      have h1 : finishVisit st = .ok tag := congrArg Prod.fst h
      have h2 : l = log := congrArg Prod.snd h
      subst h2
      exact ⟨st, by first | exact hr | rfl, h1⟩
    | err e => simp at h
    | crash => simp at h

end Forum
namespace Forum

theorem runVisitor_dup_emojiName (st : VisitState) (log : List String) (v : Value)
    (post : List (String × Value)) (hs : st.emoji_name.isSome = true) :
    runVisitor st log (("emoji_name", v) :: post) = (.err (.duplicateField "emoji_name"), log) := by
  rw [runVisitor_cons]
  have hp : parseField "emoji_name" = some Field.emojiName := rfl
  rw [hp]
  dsimp only
  have h2 : processField st .emojiName v = .err (.duplicateField "emoji_name") := by
    unfold processField
    rw [if_pos hs]
  rw [h2]

theorem runVisitor_dup_id (st : VisitState) (log : List String) (v : Value)
    (post : List (String × Value)) (hs : st.id.isSome = true) :
    runVisitor st log (("id", v) :: post) = (.err (.duplicateField "id"), log) := by
  rw [runVisitor_cons]
  have hp : parseField "id" = some Field.id := rfl
  rw [hp]
  dsimp only
  have h2 : processField st .id v = .err (.duplicateField "id") := by
    unfold processField
    rw [if_pos hs]
  rw [h2]

theorem runVisitor_dup_moderated (st : VisitState) (log : List String) (v : Value)
    (post : List (String × Value)) (hs : st.moderated.isSome = true) :
    runVisitor st log (("moderated", v) :: post) = (.err (.duplicateField "moderated"), log) := by
  rw [runVisitor_cons]
  have hp : parseField "moderated" = some Field.moderated := rfl
  rw [hp]
  dsimp only
  have h2 : processField st .moderated v = .err (.duplicateField "moderated") := by
    unfold processField
    rw [if_pos hs]
  rw [h2]

theorem runVisitor_dup_name (st : VisitState) (log : List String) (v : Value)
    (post : List (String × Value)) (hs : st.name.isSome = true) :
    runVisitor st log (("name", v) :: post) = (.err (.duplicateField "name"), log) := by
  rw [runVisitor_cons]
  have hp : parseField "name" = some Field.name := rfl
  rw [hp]
  dsimp only
  have h2 : processField st .name v = .err (.duplicateField "name") := by
    unfold processField
    rw [if_pos hs]
  rw [h2]

theorem runVisitor_dup_emojiId (st : VisitState) (log : List String) (v : Value)
    (post : List (String × Value)) (hs : st.emoji_id.isSome = true) :
    runVisitor st log (("emoji_id", v) :: post) = (.err (.duplicateField "emoji_id"), log) := by
  rw [runVisitor_cons]
  have hp : parseField "emoji_id" = some Field.emojiId := rfl
  rw [hp]
  dsimp only
  have h2 : processField st .emojiId v = .err (.duplicateField "emoji_id") := by
    unfold processField
    rw [if_pos hs]
  rw [h2]

theorem runVisitor_emojiId_absorb (st : VisitState) (log : List String) (v : Value)
    (post : List (String × Value)) (h0 : st.emoji_id = none) (hr : resolveEmojiId v = .ok none) :
    runVisitor st log (("emoji_id", v) :: post) = runVisitor st log post := by
  rw [runVisitor_cons]
  have hp : parseField "emoji_id" = some Field.emojiId := rfl
  rw [hp]
  dsimp only
  have h2 : processField st .emojiId v = .ok st := by
    obtain ⟨a, b, c, d, e⟩ := st
    dsimp only at h0
    subst h0
    simp [processField, hr]
  rw [h2]

end Forum
namespace Forum

/-- C1: the spec treats a wrapped inner text that does not parse as a
non-negative integer as no identifier present and not an error; the decoder
instead panics on the unwrap of the failed parse.  At wrapped text "abc" with
all three required fields present, decoding crashes. -/
theorem forumTag_unparseable_emoji_id_crashes :
    deserializeForumTag [("id", .u64 1), ("moderated", .bool false), ("name", .string "tag"),
      ("emoji_id", .optSome (.newtype (.string "abc")))] = (.crash, []) := by rfl

/-- C2 counterexample: emoji_id appears twice and the first occurrence resolved
to absent (zero); the claim demands a DuplicateField error at the second
occurrence, but decoding succeeds and keeps the second occurrence's value. -/
theorem forumTag_second_emoji_id_no_duplicate_error :
    deserializeForumTag [("emoji_id", .u64 0), ("emoji_id", .u64 5), ("id", .u64 1),
      ("moderated", .bool false), ("name", .string "tag")]
      = (.ok ⟨some 5, none, 1, false, "tag"⟩, []) := by rfl

/-- C2 amended: after a successfully scanned prefix, a repeat of emoji_name, id,
moderated or name fails with DuplicateField naming it at that moment; for
emoji_id the error fires exactly when an earlier occurrence resolved to a
present identifier, while an occurrence arriving with the slot absent is
processed again, an absent resolution being dropped silently. -/
theorem forumTag_duplicate_policy (pre post : List (String × Value)) (v : Value)
    (st : VisitState) (log : List String)
    (hpre : runVisitor initState [] pre = (.ok st, log)) :
    ("emoji_name" ∈ docKeys pre →
      deserializeForumTag (pre ++ ("emoji_name", v) :: post)
        = (.err (.duplicateField "emoji_name"), log)) ∧
    ("id" ∈ docKeys pre →
      deserializeForumTag (pre ++ ("id", v) :: post) = (.err (.duplicateField "id"), log)) ∧
    ("moderated" ∈ docKeys pre →
      deserializeForumTag (pre ++ ("moderated", v) :: post)
        = (.err (.duplicateField "moderated"), log)) ∧
    ("name" ∈ docKeys pre →
      deserializeForumTag (pre ++ ("name", v) :: post)
        = (.err (.duplicateField "name"), log)) ∧
    (st.emoji_id.isSome = true →
      deserializeForumTag (pre ++ ("emoji_id", v) :: post)
        = (.err (.duplicateField "emoji_id"), log)) ∧
    (st.emoji_id = none → resolveEmojiId v = .ok none →
      deserializeForumTag (pre ++ ("emoji_id", v) :: post)
        = deserializeForumTag (pre ++ post)) := by
  have happ : ∀ X, runVisitor initState [] (pre ++ X) = runVisitor st log X :=
    fun X => runVisitor_append_ok pre X initState [] st log hpre
  obtain ⟨i1, i2, i3, i4, i5, i6, i7, i8, i9, i10⟩ :=
    runVisitor_ok_inv pre initState [] st log hpre
  refine ⟨?_, ?_, ?_, ?_, ?_, ?_⟩
  · intro hm
    have hs : st.emoji_name.isSome = true := i9 (Or.inl hm)
    unfold deserializeForumTag
    rw [happ, runVisitor_dup_emojiName st log v post hs]
  · intro hm
    have hs : st.id.isSome = true := i6 (Or.inl hm)
    unfold deserializeForumTag
    rw [happ, runVisitor_dup_id st log v post hs]
  · intro hm
    have hs : st.moderated.isSome = true := i7 (Or.inl hm)
    unfold deserializeForumTag
    rw [happ, runVisitor_dup_moderated st log v post hs]
  · intro hm
    have hs : st.name.isSome = true := i8 (Or.inl hm)
    unfold deserializeForumTag
    rw [happ, runVisitor_dup_name st log v post hs]
  · intro hs
    unfold deserializeForumTag
    rw [happ, runVisitor_dup_emojiId st log v post hs]
  · intro h0 hr
    unfold deserializeForumTag
    rw [happ, happ, runVisitor_emojiId_absorb st log v post h0 hr]

/-- C2 witness: a concrete duplicate of the name key is rejected with
DuplicateField at its second occurrence. -/
theorem forumTag_duplicate_policy_witness :
    deserializeForumTag [("name", Value.string "a"), ("name", Value.string "b")]
      = (.err (.duplicateField "name"), []) :=
  (forumTag_duplicate_policy [("name", .string "a")] [] (.string "b")
    ⟨none, none, none, none, some "a"⟩ [] (by rfl)).2.2.2.1 (by decide)

end Forum
namespace Forum

/-- C3: emoji_id resolution: direct integer zero is absent, a direct positive
integer is present with that value, wrapped numeric text with a positive value
is present, explicit null is absent, an omitted key leaves emoji_id absent, and
no successful decode ever carries a present emoji_id equal to zero. -/
theorem forumTag_emoji_id_resolution :
    resolveEmojiId (.u64 0) = .ok none ∧
    (∀ n : Nat, 0 < n → resolveEmojiId (.u64 n) = .ok (some n)) ∧
    (∀ s : String, ∀ n : Nat, parseU64 s = some n → 0 < n →
      resolveEmojiId (.optSome (.newtype (.string s))) = .ok (some n)) ∧
    resolveEmojiId .optNone = .ok none ∧
    (∀ doc tag log, "emoji_id" ∉ docKeys doc → deserializeForumTag doc = (.ok tag, log) →
      tag.emoji_id = none) ∧
    (∀ doc tag log, deserializeForumTag doc = (.ok tag, log) → tag.emoji_id ≠ some 0) := by
  refine ⟨rfl, ?_, ?_, rfl, ?_, ?_⟩
  · intro n hn
    simp [resolveEmojiId, possibleId, hn]
  · intro s n hp hn
    simp [resolveEmojiId, possibleId, hp, hn]
  · intro doc tag log hnm h
    obtain ⟨st, hrv, hfin⟩ := deserializeForumTag_ok_elim doc tag log h
    have h1 := (runVisitor_ok_inv doc initState [] st log hrv).1 hnm
    have h2 := (finishVisit_ok_fields st tag hfin).1
    rw [h2, h1]
    rfl
  · intro doc tag log h
    obtain ⟨st, hrv, hfin⟩ := deserializeForumTag_ok_elim doc tag log h
    have h1 := (runVisitor_ok_inv doc initState [] st log hrv).2.2.2.2.2.2.2.2.2
      (by simp [initState])
    have h2 := (finishVisit_ok_fields st tag hfin).1
    rw [h2]
    exact h1

/-- C3 witness: the resolution at concrete inputs five, wrapped text "2", and a
concrete document without the emoji_id key. -/
theorem forumTag_emoji_id_resolution_witness :
    resolveEmojiId (.u64 5) = .ok (some 5) ∧
    resolveEmojiId (.optSome (.newtype (.string "2"))) = .ok (some 2) ∧
    (⟨none, none, 7, true, "x"⟩ : ForumTag).emoji_id = none :=
  ⟨forumTag_emoji_id_resolution.2.1 5 (by decide),
   forumTag_emoji_id_resolution.2.2.1 "2" 2 (by rfl) (by decide),
   forumTag_emoji_id_resolution.2.2.2.2.1
     [("id", .u64 7), ("moderated", .bool true), ("name", .string "x")]
     ⟨none, none, 7, true, "x"⟩ [] (by decide) (by rfl)⟩

end Forum
namespace Forum

/-- C4 counterexample: this document lacks both moderated and name, yet decoding
does not consume all keys and report MissingField; it aborts on the duplicate id
with DuplicateField. -/
theorem forumTag_missing_field_claim_fails :
    deserializeForumTag [("id", .u64 1), ("id", .u64 2)]
      = (.err (.duplicateField "id"), []) ∧
    (deserializeForumTag [("id", .u64 1), ("id", .u64 2)]).1
      ≠ .err (.missingField "moderated") := by
  exact ⟨by rfl, by decide⟩

/-- C4 amended: when the key-consuming scan completes without error, a document
lacking a required key fails with MissingField naming the first missing one in
the fixed order id, then moderated, then name. -/
theorem forumTag_missing_field_order (doc : List (String × Value)) (st : VisitState)
    (log : List String) (hscan : runVisitor initState [] doc = (.ok st, log)) :
    ("id" ∉ docKeys doc → deserializeForumTag doc = (.err (.missingField "id"), log)) ∧
    ("id" ∈ docKeys doc → "moderated" ∉ docKeys doc →
      deserializeForumTag doc = (.err (.missingField "moderated"), log)) ∧
    ("id" ∈ docKeys doc → "moderated" ∈ docKeys doc → "name" ∉ docKeys doc →
      deserializeForumTag doc = (.err (.missingField "name"), log)) := by
  have hdes : deserializeForumTag doc = (finishVisit st, log) := by
    unfold deserializeForumTag
    rw [hscan]
  obtain ⟨i1, i2, i3, i4, i5, i6, i7, i8, i9, i10⟩ :=
    runVisitor_ok_inv doc initState [] st log hscan
  refine ⟨?_, ?_, ?_⟩
  · intro hid
    have h1 : st.id = none := i3 hid
    rw [hdes]
    unfold finishVisit
    rw [h1]
  · intro hid hmod
    obtain ⟨i, hi⟩ := Option.isSome_iff_exists.mp (i6 (Or.inl hid))
    have h1 : st.moderated = none := i4 hmod
    rw [hdes]
    unfold finishVisit
    rw [hi, h1]
  · intro hid hmod hnm
    obtain ⟨i, hi⟩ := Option.isSome_iff_exists.mp (i6 (Or.inl hid))
    obtain ⟨m, hm⟩ := Option.isSome_iff_exists.mp (i7 (Or.inl hmod))
    have h1 : st.name = none := i5 hnm
    rw [hdes]
    unfold finishVisit
    rw [hi, hm, h1]

/-- C4 witness: a document holding only moderated is rejected with MissingField
naming id, the first missing required field. -/
theorem forumTag_missing_field_order_witness :
    deserializeForumTag [("moderated", Value.bool false)]
      = (.err (.missingField "id"), []) :=
  (forumTag_missing_field_order [("moderated", .bool false)]
    ⟨none, none, none, some false, none⟩ [] (by rfl)).1 (by decide)

/-- C5 counterexample: the document contains the unrecognized key zzz, but the
decode aborts earlier on the duplicate id, so no diagnostic event is emitted
for zzz, against one event per unrecognized key. -/
theorem forumTag_unknown_key_event_missing :
    deserializeForumTag [("id", .u64 1), ("id", .u64 3), ("zzz", .u64 0)]
      = (.err (.duplicateField "id"), []) ∧
    unrecognizedKeys [("id", .u64 1), ("id", .u64 3), ("zzz", .u64 0)] = ["zzz"] :=
  ⟨by rfl, by rfl⟩

/-- C5 amended: unrecognized keys never change the decode result, which equals
the result on the document with those keys removed; and whenever the scan of
all keys completes, the trace log holds exactly one event per unrecognized key,
in order.  When the scan aborts early the log covers only the keys before the
abort. -/
theorem forumTag_unknown_keys_ignored (doc : List (String × Value)) :
    (deserializeForumTag doc).1 = (deserializeForumTag (filterRecognized doc)).1 ∧
    (∀ st log, runVisitor initState [] doc = (.ok st, log) → log = unrecognizedKeys doc) := by
  constructor
  · have hf := runVisitor_filter_fst doc initState []
    unfold deserializeForumTag
    rcases h1 : runVisitor initState [] doc with ⟨r1, l1⟩
    rcases h2 : runVisitor initState [] (filterRecognized doc) with ⟨r2, l2⟩
    rw [h1, h2] at hf
    dsimp only at hf
    rw [hf]
    cases r1 <;> rfl
  · intro st log h
    have := runVisitor_ok_log doc initState [] st log h
    simpa using this

/-- C5 witness: concrete instance with one unrecognized key logged once. -/
theorem forumTag_unknown_keys_ignored_witness :
    ["zzz2"] = unrecognizedKeys [("id", Value.u64 1), ("zzz2", Value.u64 9)] :=
  (forumTag_unknown_keys_ignored [("id", .u64 1), ("zzz2", .u64 9)]).2
    ⟨none, none, some 1, none, none⟩ ["zzz2"] (by rfl)

end Forum
namespace Forum

/-- C6: the concrete document with name "other", moderated false, id as text
"2", emoji_name "emoji_name" and emoji_id zero decodes successfully, with the
zero emoji_id normalized to absent. -/
theorem forumTag_emoji_id_zero_scenario :
    deserializeForumTag [("name", .string "other"), ("moderated", .bool false),
      ("id", .string "2"), ("emoji_name", .string "emoji_name"), ("emoji_id", .u64 0)]
      = (.ok ⟨none, some "emoji_name", 2, false, "other"⟩, []) := by rfl

/-- C7: the concrete document with emoji_id as wrapped text "1", id as wrapped
text "2", moderated false, name "other" and emoji_name omitted decodes to
emoji_id present with one and emoji_name absent; and in general a document
without the emoji_name key decodes, when it succeeds, to an absent
emoji_name. -/
theorem forumTag_wrapped_scenario :
    deserializeForumTag [("emoji_id", .optSome (.newtype (.string "1"))),
      ("id", .newtype (.string "2")), ("moderated", .bool false), ("name", .string "other")]
      = (.ok ⟨some 1, none, 2, false, "other"⟩, []) ∧
    (∀ doc tag log, "emoji_name" ∉ docKeys doc → deserializeForumTag doc = (.ok tag, log) →
      tag.emoji_name = none) := by
  constructor
  · rfl
  · intro doc tag log hnm h
    obtain ⟨st, hrv, hfin⟩ := deserializeForumTag_ok_elim doc tag log h
    have h1 := (runVisitor_ok_inv doc initState [] st log hrv).2.1 hnm
    have h2 := (finishVisit_ok_fields st tag hfin).2
    rw [h2, h1]
    rfl

/-- C7 witness: the general emoji_name default applied to the concrete
scenario document. -/
theorem forumTag_wrapped_scenario_witness :
    (⟨some 1, none, 2, false, "other"⟩ : ForumTag).emoji_name = none :=
  forumTag_wrapped_scenario.2
    [("emoji_id", .optSome (.newtype (.string "1"))), ("id", .newtype (.string "2")),
      ("moderated", .bool false), ("name", .string "other")]
    ⟨some 1, none, 2, false, "other"⟩ [] (by decide) forumTag_wrapped_scenario.1

/-- C8: DefaultReaction round-trips without loss for every combination of its
two optional fields: encoding then decoding yields the identical value. -/
theorem defaultReaction_roundtrip (r : DefaultReaction) :
    deserializeDefaultReaction (serializeDefaultReaction r) = .ok r := by
  obtain ⟨a, b⟩ := r
  cases a <;> cases b <;> rfl

/-- C9: the decoder performs no length validation on name: any text, of any
length, is stored verbatim; and at the dispatch level a name value is accepted
unchanged whenever its slot is still empty. -/
theorem forumTag_name_verbatim :
    (∀ s : String,
      deserializeForumTag [("id", .u64 1), ("moderated", .bool false), ("name", .string s)]
        = (.ok ⟨none, none, 1, false, s⟩, [])) ∧
    (∀ (st : VisitState) (s : String), st.name = none →
      processField st .name (.string s) = .ok { st with name := some s }) := by
  constructor
  · intro s
    rfl
  · intro st s h0
    unfold processField
    rw [h0]
    rfl

/-- C9 witness: a 26-character name is decoded verbatim, and the dispatch step
stores a concrete name into the empty state. -/
theorem forumTag_name_verbatim_witness :
    deserializeForumTag [("id", .u64 1), ("moderated", .bool false),
      ("name", .string "abcdefghijklmnopqrstuvwxyz")]
      = (.ok ⟨none, none, 1, false, "abcdefghijklmnopqrstuvwxyz"⟩, []) ∧
    processField initState .name (.string "x") = .ok { initState with name := some "x" } :=
  ⟨forumTag_name_verbatim.1 "abcdefghijklmnopqrstuvwxyz",
   forumTag_name_verbatim.2 initState "x" (by rfl)⟩

/-- C10: no mutual exclusion between emoji_id and emoji_name is enforced: a
document with a positive emoji_id, a text emoji_name and the three required
fields decodes successfully with both populated. -/
theorem forumTag_both_emoji_fields :
    ∃ doc : List (String × Value), ∃ tag : ForumTag, ∃ log : List String,
      deserializeForumTag doc = (.ok tag, log) ∧
      tag.emoji_id = some 5 ∧ tag.emoji_name = some "smile" :=
  ⟨[("id", .u64 2), ("moderated", .bool false), ("name", .string "other"),
    ("emoji_id", .u64 5), ("emoji_name", .string "smile")],
   ⟨some 5, some "smile", 2, false, "other"⟩, [], by rfl, rfl, rfl⟩

end Forum
namespace Forum

/-- C8 witness: the round-trip at a concrete value with both fields present. -/
theorem defaultReaction_roundtrip_witness :
    deserializeDefaultReaction (serializeDefaultReaction ⟨some 3, some "grin"⟩)
      = .ok ⟨some 3, some "grin"⟩ :=
  defaultReaction_roundtrip ⟨some 3, some "grin"⟩

end Forum
